import Mathlib

/-!
Verification of the revenue allocation and distribution engine of
`collecting_society.py` (classes `Distribute`, `Distribution`, `Allocation`,
`Utilisation`, `Contribution`).

Conventions of the shallow embedding:
* Python `Decimal` values are modelled as `ℚ` (exact decimal arithmetic).
* `currency.round` (Tryton, 2 minor-unit digits by default, ROUND_HALF_EVEN)
  is modelled by `currencyRound`, banker's rounding to 2 decimal digits.
* `collections.Counter` results of `Distribute._allocate` are modelled as
  association lists `List (ArtistId × ℚ)` with first-occurrence lookup,
  default value 0, matching dict/Counter semantics.
* Dates are day numbers (`Int`); `datetime.datetime.combine(d, time.min)` /
  `time.max` become `combineMin` / `combineMax` in seconds.
* External reads (party pocket balances/budgets, account lookups, the
  accounting period resolver, the TRANS journal) live in an `Env` record;
  the database rows the wizard reads and writes live in a `DB` record.
-/

abbrev ArtistId := Nat
abbrev PartyId := Nat

/-- Values of the `creation.contribution.type` selection: performance,
composition, text. -/
inductive ContributionType
  | performance
  | composition
  | text
  deriving DecidableEq, Repr

/-- One `creation.contribution` row: the artist and the contribution type. -/
structure Contribution where
  artist : ArtistId
  type : ContributionType
  deriving DecidableEq, Repr

/-- A `creation` row as read by `_allocate`: its directly named `artist`
and its `contributions`. -/
structure Creation where
  artist : ArtistId
  contributions : List Contribution
  deriving DecidableEq, Repr

/-- Round a rational to the nearest integer, ties to even
(Python/Tryton ROUND_HALF_EVEN). -/
def roundHalfEven (x : ℚ) : ℤ :=
  let n := ⌊x⌋
  let f := x - (n : ℚ)
  if f < 1/2 then n
  else if 1/2 < f then n + 1
  else if n % 2 = 0 then n else n + 1

/-- Tryton `currency.round` at the default 2 minor-unit digits:
quantize to a multiple of 0.01 with banker's rounding. -/
def currencyRound (x : ℚ) : ℚ :=
  (roundHalfEven (x * 100) : ℚ) / 100

/-- Counter/dict over artists: association list, first occurrence wins. -/
abbrev ArtistMap := List (ArtistId × ℚ)

/-- Dict lookup with Counter's default 0 for a missing key. -/
def mapGet : ArtistMap → ArtistId → ℚ
  | [], _ => 0
  | p :: t, a => if p.1 = a then p.2 else mapGet t a

/-- Dict assignment `result[a] = v`: replace the first binding of `a`,
or append a new binding. -/
def mapSet : ArtistMap → ArtistId → ℚ → ArtistMap
  | [], a, v => [(a, v)]
  | p :: t, a, v => if p.1 = a then (a, v) :: t else p :: mapSet t a v

/-- Counter accumulation `result[a] += v`. -/
def mapAdd (r : ArtistMap) (a : ArtistId) (v : ℚ) : ArtistMap :=
  mapSet r a (mapGet r a + v)

/-- Sum of the values of the mapping. -/
def mapTotal (r : ArtistMap) : ℚ :=
  (r.map Prod.snd).sum

/-- The per-role artist lists built by `_allocate`:
`[c.artist for c in creation.contributions if c.type == t]`.
One artist appears once per contribution record of that type. -/
def roleArtists (c : Creation) (t : ContributionType) : List ArtistId :=
  (c.contributions.filter fun k => k.type == t).map Contribution.artist

/-- The source's `creators = composer or texter`. -/
def creatorsOf (c : Creation) : List ArtistId :=
  if roleArtists c ContributionType.composition = [] then
    roleArtists c ContributionType.text
  else roleArtists c ContributionType.composition

/-- The amount after the performer/creator halving:
`if performers and creators: amount = amount / Decimal(2)`. -/
def baseAmount (c : Creation) (amount : ℚ) : ℚ :=
  if roleArtists c ContributionType.performance ≠ [] ∧ creatorsOf c ≠ [] then
    amount / 2
  else amount

/-- The `composer_amount` computed by `_allocate` (0 when never assigned). -/
def composerAmountOf (c : Creation) (amount : ℚ) : ℚ :=
  let a := baseAmount c amount
  let composer := roleArtists c ContributionType.composition
  let texter := roleArtists c ContributionType.text
  if composer ≠ [] ∧ texter ≠ [] then
    a * 65 / 100 / (composer.length : ℚ)
  else if texter ≠ [] then 0
  else if composer ≠ [] then a / (composer.length : ℚ)
  else 0

/-- The `texter_amount` computed by `_allocate` (0 when never assigned). -/
def texterAmountOf (c : Creation) (amount : ℚ) : ℚ :=
  let a := baseAmount c amount
  let composer := roleArtists c ContributionType.composition
  let texter := roleArtists c ContributionType.text
  if composer ≠ [] ∧ texter ≠ [] then
    a * 35 / 100 / (texter.length : ℚ)
  else if texter ≠ [] then a / (texter.length : ℚ)
  else 0

/-- The `performer_amount` computed by `_allocate` (0 when never assigned). -/
def performerAmountOf (c : Creation) (amount : ℚ) : ℚ :=
  let performers := roleArtists c ContributionType.performance
  if performers ≠ [] then baseAmount c amount / (performers.length : ℚ)
  else 0

/-- The method `Distribute._allocate(creation, amount, result)`.  With no
contributions the whole amount is assigned to `creation.artist`;
otherwise each role member accumulates its per-record role amount.
The derivative/original traversal is commented out in the source. -/
def allocate (c : Creation) (amount : ℚ) (result : ArtistMap) : ArtistMap :=
  if c.contributions = [] then
    mapSet result c.artist amount
  else
    let composer := roleArtists c ContributionType.composition
    let texter := roleArtists c ContributionType.text
    let performers := roleArtists c ContributionType.performance
    let r1 := composer.foldl (fun r a => mapAdd r a (composerAmountOf c amount)) result
    let r2 := texter.foldl (fun r a => mapAdd r a (texterAmountOf c amount)) r1
    performers.foldl (fun r a => mapAdd r a (performerAmountOf c amount)) r2

/-! ## The distribution wizard (`Distribute.transition_distribute`) -/

/-- Lifecycle states of a `creation.utilisation` row. -/
inductive UtilState
  | not_distributed
  | processing
  | distributed
  deriving DecidableEq, Repr

/-- A `creation.utilisation` row as read and written by the wizard. -/
structure Utilisation where
  id : Nat
  timestamp : Int
  party : PartyId
  creation : Creation
  state : UtilState
  allocation : Option Nat
  deriving DecidableEq, Repr

/-- A `distribution` row created by the wizard. -/
structure Distribution where
  id : Nat
  date : Int
  from_date : Int
  thru_date : Int
  deriving DecidableEq, Repr

/-- Values of the `distribution.allocation.type` selection. -/
inductive AllocationType
  | pocket2hats
  | hat2pockets
  deriving DecidableEq, Repr

/-- A `distribution.allocation` row created by the wizard. -/
structure Allocation where
  id : Nat
  party : PartyId
  distribution : Nat
  type : AllocationType
  amount : ℚ
  share_amount : ℚ
  deriving DecidableEq, Repr

/-- The accounts move lines reference: the first revenue account,
a party's `pocket_account`, or an artist's `hat_account`. -/
inductive Account
  | revenue
  | pocket (p : PartyId)
  | hat (a : ArtistId)
  deriving DecidableEq, Repr

/-- One `account.move.line` dict as built by the wizard (state is
always `draft`). -/
structure MoveLine where
  party : Option PartyId
  artist : Option ArtistId
  account : Account
  debit : ℚ
  credit : ℚ
  deriving DecidableEq, Repr

/-- One `account.move` dict as built by the wizard (state `draft`,
origin `distribution.allocation,<id>`). -/
structure AccountMove where
  journal : Nat
  origin : Nat
  date : Int
  period : Nat
  lines : List MoveLine
  deriving DecidableEq, Repr

/-- External reads: the party ledger (`pocket_balance`, `pocket_budget`). -/
structure PartyData where
  pocket_balance : ℚ
  pocket_budget : ℚ
  deriving DecidableEq, Repr

/-- External collaborators: party ledger, company party, accounting
period resolver, the TRANS journal. -/
structure Env where
  parties : PartyId → PartyData
  companyParty : PartyId
  periodOf : Int → Nat
  journalId : Nat

/-- The wizard start form: run date and window. -/
structure DistributeStart where
  date : Int
  from_date : Int
  thru_date : Int
  deriving DecidableEq, Repr

/-- Database rows the wizard touches. -/
structure DB where
  utilisations : List Utilisation
  distributions : List Distribution
  allocations : List Allocation
  moves : List AccountMove
  nextDistributionId : Nat
  nextAllocationId : Nat
  deriving DecidableEq, Repr

/-- The instant `datetime.datetime.combine(d, datetime.time.min)` in seconds. -/
def combineMin (d : Int) : Int := d * 86400

/-- The instant `datetime.datetime.combine(d, datetime.time.max)` in seconds
(end of day). -/
def combineMax (d : Int) : Int := d * 86400 + 86399

/-- The `Utilisation.search` at the start of `transition_distribute`:
timestamp within `[from_date 00:00:00, thru_date 23:59:59]` and
`state == not_distributed`. -/
def selectUtilisations (start : DistributeStart) (us : List Utilisation) :
    List Utilisation :=
  us.filter fun u =>
    decide (combineMin start.from_date ≤ u.timestamp) &&
    decide (u.timestamp ≤ combineMax start.thru_date) &&
    (u.state == UtilState.not_distributed)

/-- Keys of `party_utilisations` (a dict built by appending in
selection order); iteration is modelled in first-appearance order. -/
def partyKeys (us : List Utilisation) : List PartyId :=
  us.foldl (fun ks u => if u.party ∈ ks then ks else ks ++ [u.party]) []

/-- The pre-rounding per-artist credits for one party: the breakdowns
`self._allocate(utilisation.creation, share_amount)` of all the party's
utilisations, concatenated in iteration order. -/
def hatCredits (g : List Utilisation) (share_amount : ℚ) :
    List (ArtistId × ℚ) :=
  (g.map fun u => allocate u.creation share_amount []).flatten

/-- What the per-party loop body produces for one non-skipped party. -/
structure PartyResult where
  alloc : Allocation
  move : AccountMove
  processedIds : List Nat
  deriving DecidableEq, Repr

/-- The body of the per-party loop of `transition_distribute`.
Returns `none` when the party is skipped (`continue`): empty group,
or falsy (zero) `pocket_balance`.  Otherwise caps the amount by the
budget, rounds, computes fee and share, and builds the allocation,
the move lines and the ids of the utilisations written to
`processing`. -/
def processParty (env : Env) (start : DistributeStart)
    (distId allocId : Nat) (p : PartyId) (g : List Utilisation) :
    Option PartyResult :=
  if g = [] then none
  else
    let pd := env.parties p
    if pd.pocket_balance = 0 then none
    else
      let amount0 :=
        if pd.pocket_budget < pd.pocket_balance then pd.pocket_budget
        else pd.pocket_balance
      let amount := currencyRound amount0
      let fee_amount := currencyRound (amount * 10 / 100)
      let share_amount := currencyRound ((amount - fee_amount) / (g.length : ℚ))
      let alloc : Allocation :=
        { id := allocId, party := p, distribution := distId,
          type := AllocationType.pocket2hats,
          amount := amount, share_amount := share_amount }
      let feeLine : MoveLine :=
        { party := some env.companyParty, artist := none,
          account := Account.revenue, debit := 0, credit := fee_amount }
      let pocketLine : MoveLine :=
        { party := some p, artist := none, account := Account.pocket p,
          debit := amount, credit := 0 }
      let hatLines : List MoveLine :=
        (hatCredits g share_amount).map fun pr =>
          { party := none, artist := some pr.1, account := Account.hat pr.1,
            debit := 0, credit := currencyRound pr.2 }
      let move : AccountMove :=
        { journal := env.journalId, origin := allocId, date := start.date,
          period := env.periodOf start.date,
          lines := [feeLine, pocketLine] ++ hatLines }
      some { alloc := alloc, move := move, processedIds := g.map (·.id) }

/-- Accumulator of the per-party loop: the (mutated) utilisation rows,
the created allocations and pending account moves, the next allocation
id, and the current value of the Python loop variable `utilisations`
(which leaks out of the loop). -/
structure LoopState where
  utils : List Utilisation
  allocs : List Allocation
  moves : List AccountMove
  nextAllocId : Nat
  lastGroup : List Utilisation
  deriving Repr

/-- The write `Utilisation.write(group, dict(state=processing, allocation=aid))`. -/
def writeProcessing (us : List Utilisation) (ids : List Nat) (aid : Nat) :
    List Utilisation :=
  us.map fun u =>
    if u.id ∈ ids then
      { u with state := UtilState.processing, allocation := some aid }
    else u

/-- One iteration of `for party_id, utilisations in
party_utilisations.iteritems():` — the loop variable is rebound to the
group before the body runs, skipped parties change nothing else. -/
def loopStep (env : Env) (start : DistributeStart) (distId : Nat)
    (s : LoopState) (pg : PartyId × List Utilisation) : LoopState :=
  let s := { s with lastGroup := pg.2 }
  match processParty env start distId s.nextAllocId pg.1 pg.2 with
  | none => s
  | some r =>
      { utils := writeProcessing s.utils r.processedIds r.alloc.id,
        allocs := s.allocs ++ [r.alloc],
        moves := s.moves ++ [r.move],
        nextAllocId := s.nextAllocId + 1,
        lastGroup := pg.2 }

/-- The wizard transition `Distribute.transition_distribute`.  Selects
utilisations, returns
unchanged on an empty selection, creates the distribution (note the
source stores `self.start.thru_date` in `from_date`), groups by party,
runs the per-party loop, creates the account moves, and finally writes
`state = 'distributed'` to the rows still referenced by the leaked
loop variable `utilisations` — the last iterated group. -/
def transition_distribute (env : Env) (start : DistributeStart) (db : DB) :
    DB :=
  let selected := selectUtilisations start db.utilisations
  if selected = [] then db
  else
    let dist : Distribution :=
      { id := db.nextDistributionId, date := start.date,
        from_date := start.thru_date, thru_date := start.thru_date }
    let groups : List (PartyId × List Utilisation) :=
      (partyKeys selected).map fun p => (p, selected.filter (·.party == p))
    let init : LoopState :=
      { utils := db.utilisations, allocs := [], moves := [],
        nextAllocId := db.nextAllocationId, lastGroup := [] }
    let s := groups.foldl (loopStep env start dist.id) init
    let lastIds : List Nat := s.lastGroup.map (·.id)
    let finalUtils := s.utils.map fun u =>
      if u.id ∈ lastIds then { u with state := UtilState.distributed } else u
    { utilisations := finalUtils,
      distributions := db.distributions ++ [dist],
      allocations := db.allocations ++ s.allocs,
      moves := db.moves ++ s.moves,
      nextDistributionId := db.nextDistributionId + 1,
      nextAllocationId := s.nextAllocId }

/-! ## Helper lemmas about the Counter embedding -/

theorem mapTotal_nil : mapTotal [] = 0 := rfl

theorem mapTotal_mapAdd (r : ArtistMap) (a : ArtistId) (v : ℚ) :
    mapTotal (mapAdd r a v) = mapTotal r + v := by
  induction r with
  | nil => simp [mapAdd, mapSet, mapGet, mapTotal]
  | cons p t ih =>
    by_cases h : p.1 = a
    · simp [mapAdd, mapSet, mapGet, h, mapTotal]
      ring
    · simp only [mapAdd, mapGet, mapSet, if_neg h] at ih ⊢
      simp only [mapTotal, List.map_cons, List.sum_cons] at ih ⊢
      rw [ih]
      ring

theorem mapTotal_foldl_mapAdd (l : List ArtistId) (v : ℚ) (r : ArtistMap) :
    mapTotal (l.foldl (fun r a => mapAdd r a v) r)
      = mapTotal r + (l.length : ℚ) * v := by
  induction l generalizing r with
  | nil => simp
  | cons a t ih =>
    simp only [List.foldl_cons, ih, mapTotal_mapAdd, List.length_cons]
    push_cast
    ring

theorem mapGet_mapAdd (r : ArtistMap) (b a : ArtistId) (v : ℚ) :
    mapGet (mapAdd r b v) a = mapGet r a + (if b = a then v else 0) := by
  induction r with
  | nil =>
    simp only [mapAdd, mapSet, mapGet]
    by_cases h : b = a <;> simp [h]
  | cons p t ih =>
    by_cases hpb : p.1 = b
    · simp only [mapAdd, mapSet, mapGet, if_pos hpb]
      by_cases hba : b = a
      · subst hba
        simp [mapGet, hpb]
      · simp [mapGet, hba, hpb ▸ hba]
    · simp only [mapAdd, mapSet, mapGet, if_neg hpb] at ih ⊢
      by_cases hpa : p.1 = a
      · have hba : ¬ b = a := fun h => hpb (h ▸ hpa)
        simp [mapGet, hpa, hba]
      · simp [mapGet, hpa, ih]

theorem mapGet_foldl_mapAdd (l : List ArtistId) (v : ℚ) (r : ArtistMap)
    (a : ArtistId) :
    mapGet (l.foldl (fun r x => mapAdd r x v) r) a
      = mapGet r a + (l.count a : ℚ) * v := by
  induction l generalizing r with
  | nil => simp [List.count]
  | cons b t ih =>
    simp only [List.foldl_cons, ih, mapGet_mapAdd]
    by_cases h : b = a
    · subst h
      rw [List.count_cons_self, if_pos rfl]
      push_cast
      ring
    · rw [List.count_cons_of_ne (fun hne => h hne.symm)]
      simp [h]

/-! ## Helper lemmas about `_allocate` -/

/-- Every contribution lands in exactly one of the three role lists. -/
theorem roleArtists_length_sum (c : Creation) :
    (roleArtists c ContributionType.performance).length
      + (roleArtists c ContributionType.composition).length
      + (roleArtists c ContributionType.text).length
      = c.contributions.length := by
  simp only [roleArtists, List.length_map]
  induction c.contributions with
  | nil => rfl
  | cons k t ih =>
    cases hk : k.type <;>
      simp [List.filter_cons, hk, ih] <;> omega

theorem roles_not_all_empty (c : Creation) (h : c.contributions ≠ []) :
    ¬(roleArtists c ContributionType.composition = []
      ∧ roleArtists c ContributionType.text = []
      ∧ roleArtists c ContributionType.performance = []) := by
  rintro ⟨h1, h2, h3⟩
  have := roleArtists_length_sum c
  rw [h1, h2, h3] at this
  simp only [List.length_nil] at this
  exact h (List.length_eq_zero.mp this.symm)

/-- The returned shares always sum exactly to the input amount
(pre-rounding, exact rational arithmetic). -/
theorem allocate_total (c : Creation) (amount : ℚ) :
    mapTotal (allocate c amount []) = amount := by
  by_cases hc : c.contributions = []
  · simp [allocate, hc, mapSet, mapTotal]
  · simp only [allocate, if_neg hc]
    rw [mapTotal_foldl_mapAdd, mapTotal_foldl_mapAdd, mapTotal_foldl_mapAdd,
      mapTotal_nil]
    have hpart := roles_not_all_empty c hc
    set C := roleArtists c ContributionType.composition with hCdef
    set T := roleArtists c ContributionType.text with hTdef
    set P := roleArtists c ContributionType.performance with hPdef
    by_cases hC : C = [] <;> by_cases hT : T = [] <;> by_cases hP : P = []
    · exact absurd ⟨hC, hT, hP⟩ hpart
    all_goals {
      have hcr : creatorsOf c = if C = [] then T else C := by
        simp [creatorsOf, hCdef, hTdef]
      simp only [composerAmountOf, texterAmountOf, performerAmountOf,
        baseAmount, hcr, ← hCdef, ← hTdef, ← hPdef]
      first
      | (have hCq : (C.length : ℚ) ≠ 0 :=
          Nat.cast_ne_zero.mpr (fun h0 => hC (List.length_eq_zero.mp h0)))
      | skip
      first
      | (have hTq : (T.length : ℚ) ≠ 0 :=
          Nat.cast_ne_zero.mpr (fun h0 => hT (List.length_eq_zero.mp h0)))
      | skip
      first
      | (have hPq : (P.length : ℚ) ≠ 0 :=
          Nat.cast_ne_zero.mpr (fun h0 => hP (List.length_eq_zero.mp h0)))
      | skip
      simp only [hC, hT, hP, if_pos, if_neg, not_false_iff, and_true,
        true_and, and_false, false_and, if_true, if_false, ne_eq,
        not_true_eq_false, not_false_eq_true]
      norm_num
      try field_simp
      try ring
    }

/-- The pre-rounding hat credits for a party sum to
`count(utilisations) * share_amount`. -/
theorem hatCredits_total (g : List Utilisation) (v : ℚ) :
    ((hatCredits g v).map Prod.snd).sum = (g.length : ℚ) * v := by
  induction g with
  | nil => simp [hatCredits]
  | cons u t ih =>
    have hu : mapTotal (allocate u.creation v []) = v := allocate_total _ _
    simp only [hatCredits, List.map_cons, List.flatten_cons, List.map_append,
      List.sum_append, List.length_cons] at ih ⊢
    rw [ih]
    simp only [mapTotal] at hu
    rw [hu]
    push_cast
    ring

/-! ## Helper lemmas about the per-party loop body -/

theorem processParty_eq_none_iff (env : Env) (start : DistributeStart)
    (distId allocId : Nat) (p : PartyId) (g : List Utilisation)
    (hg : g ≠ []) :
    processParty env start distId allocId p g = none
      ↔ (env.parties p).pocket_balance = 0 := by
  rw [processParty, if_neg hg]
  by_cases hb : (env.parties p).pocket_balance = 0 <;> simp [hb]

theorem processParty_some_amount (env : Env) (start : DistributeStart)
    (distId allocId : Nat) (p : PartyId) (g : List Utilisation)
    (r : PartyResult)
    (h : processParty env start distId allocId p g = some r) :
    r.alloc.amount = currencyRound
      (if (env.parties p).pocket_budget < (env.parties p).pocket_balance
       then (env.parties p).pocket_budget
       else (env.parties p).pocket_balance) := by
  by_cases hg : g = []
  · rw [processParty, if_pos hg] at h
    exact absurd h (by simp)
  · rw [processParty, if_neg hg] at h
    by_cases hb : (env.parties p).pocket_balance = 0
    · rw [if_pos hb] at h
      exact absurd h (by simp)
    · rw [if_neg hb] at h
      simp only [Option.some.injEq] at h
      subst h
      rfl

/-- The capped, rounded pocket amount of a party. -/
def cappedAmount (env : Env) (p : PartyId) : ℚ :=
  currencyRound
    (if (env.parties p).pocket_budget < (env.parties p).pocket_balance
     then (env.parties p).pocket_budget
     else (env.parties p).pocket_balance)

/-- The 10% fee on the capped amount. -/
def feeOf (env : Env) (p : PartyId) : ℚ :=
  currencyRound (cappedAmount env p * 10 / 100)

/-- The rounded per-utilisation share of a party with `n` utilisations. -/
def shareOf (env : Env) (p : PartyId) (n : Nat) : ℚ :=
  currencyRound ((cappedAmount env p - feeOf env p) / (n : ℚ))

/-- The exact shape of the result for a non-skipped party. -/
theorem processParty_some_eq (env : Env) (start : DistributeStart)
    (distId allocId : Nat) (p : PartyId) (g : List Utilisation)
    (hg : g ≠ []) (hb : (env.parties p).pocket_balance ≠ 0) :
    processParty env start distId allocId p g =
      some
        { alloc :=
          { id := allocId, party := p, distribution := distId,
            type := AllocationType.pocket2hats,
            amount := cappedAmount env p,
            share_amount := shareOf env p g.length },
          move :=
          { journal := env.journalId, origin := allocId, date := start.date,
            period := env.periodOf start.date,
            lines :=
              [{ party := some env.companyParty, artist := none,
                 account := Account.revenue, debit := 0,
                 credit := feeOf env p },
               { party := some p, artist := none, account := Account.pocket p,
                 debit := cappedAmount env p, credit := 0 }]
              ++ (hatCredits g (shareOf env p g.length)).map fun pr =>
                  { party := none, artist := some pr.1,
                    account := Account.hat pr.1,
                    debit := 0, credit := currencyRound pr.2 } },
          processedIds := g.map (·.id) } := by
  rw [processParty, if_neg hg, if_neg hb]
  rfl

/-! ## Concrete fixtures -/

/-- A creation with one composition contribution by artist 1. -/
def creationOneComposer : Creation :=
  { artist := 9,
    contributions := [{ artist := 1, type := ContributionType.composition }] }

/-- One composer (artist 1) and one performer (artist 2). -/
def creationComposerPerformer : Creation :=
  { artist := 9,
    contributions :=
      [{ artist := 1, type := ContributionType.composition },
       { artist := 2, type := ContributionType.performance }] }

/-- One composer (artist 1) and one texter (artist 2), no performers. -/
def creationComposerTexter : Creation :=
  { artist := 9,
    contributions :=
      [{ artist := 1, type := ContributionType.composition },
       { artist := 2, type := ContributionType.text }] }

/-- Artist 1 holds two composition records, artist 2 holds one. -/
def creationDupComposer : Creation :=
  { artist := 9,
    contributions :=
      [{ artist := 1, type := ContributionType.composition },
       { artist := 1, type := ContributionType.composition },
       { artist := 2, type := ContributionType.composition }] }

/-- A creation with 2 composers, 1 texter, 3 performers. -/
def creationMix : Creation :=
  { artist := 9,
    contributions :=
      [{ artist := 1, type := ContributionType.composition },
       { artist := 2, type := ContributionType.composition },
       { artist := 3, type := ContributionType.text },
       { artist := 4, type := ContributionType.performance },
       { artist := 5, type := ContributionType.performance },
       { artist := 6, type := ContributionType.performance }] }

/-- Seven distinct composers, artists 1..7. -/
def creationSeven : Creation :=
  { artist := 99,
    contributions :=
      [{ artist := 1, type := ContributionType.composition },
       { artist := 2, type := ContributionType.composition },
       { artist := 3, type := ContributionType.composition },
       { artist := 4, type := ContributionType.composition },
       { artist := 5, type := ContributionType.composition },
       { artist := 6, type := ContributionType.composition },
       { artist := 7, type := ContributionType.composition }] }

/-- An unclaimed creation: no contributions, named artist 42. -/
def creationUnclaimed : Creation := { artist := 42, contributions := [] }

/-- A fresh in-window utilisation. -/
def mkUtil (i p : Nat) (c : Creation) : Utilisation :=
  { id := i, timestamp := 5 * 86400, party := p, creation := c,
    state := UtilState.not_distributed, allocation := none }

/-- Run date 40, window days 0..30. -/
def startW : DistributeStart := { date := 40, from_date := 0, thru_date := 30 }

/-- Every party has balance 100 and budget 1000. -/
def envRich : Env :=
  { parties := fun _ => { pocket_balance := 100, pocket_budget := 1000 },
    companyParty := 0, periodOf := fun _ => 7, journalId := 3 }

/-- Every party has balance 5 but budget 0. -/
def envZeroBudget : Env :=
  { parties := fun _ => { pocket_balance := 5, pocket_budget := 0 },
    companyParty := 0, periodOf := fun _ => 7, journalId := 3 }

/-- Every party has empty pockets. -/
def envNone : Env :=
  { parties := fun _ => { pocket_balance := 0, pocket_budget := 0 },
    companyParty := 0, periodOf := fun _ => 7, journalId := 3 }

/-- Two in-window utilisations of two different parties. -/
def dbTwo : DB :=
  { utilisations := [mkUtil 1 1 creationOneComposer,
                     mkUtil 2 2 creationOneComposer],
    distributions := [], allocations := [], moves := [],
    nextDistributionId := 0, nextAllocationId := 0 }

/-- One in-window utilisation of the seven-composer creation. -/
def dbSeven : DB :=
  { utilisations := [mkUtil 1 1 creationSeven],
    distributions := [], allocations := [], moves := [],
    nextDistributionId := 0, nextAllocationId := 0 }

/-- One in-window utilisation of the one-composer creation. -/
def dbOneSimple : DB :=
  { utilisations := [mkUtil 1 1 creationOneComposer],
    distributions := [], allocations := [], moves := [],
    nextDistributionId := 0, nextAllocationId := 0 }

/-- One utilisation far outside the window. -/
def dbOutside : DB :=
  { utilisations :=
      [{ id := 1, timestamp := 100 * 86400, party := 1,
         creation := creationOneComposer,
         state := UtilState.not_distributed, allocation := none }],
    distributions := [], allocations := [], moves := [],
    nextDistributionId := 5, nextAllocationId := 5 }

/-- The party result of `processParty envRich startW 0 0 1
[mkUtil 1 1 creationOneComposer]`, written out. -/
def resultExact : PartyResult :=
  { alloc :=
    { id := 0, party := 1, distribution := 0,
      type := AllocationType.pocket2hats, amount := 100, share_amount := 90 },
    move :=
    { journal := 3, origin := 0, date := 40, period := 7,
      lines :=
        [{ party := some 0, artist := none, account := Account.revenue,
           debit := 0, credit := 10 },
         { party := some 1, artist := none, account := Account.pocket 1,
           debit := 100, credit := 0 },
         { party := none, artist := some 1, account := Account.hat 1,
           debit := 0, credit := 90 }] },
    processedIds := [1] }

/-! ## Claim theorems -/

/-- C4: for every creation with at least one contribution, the values of
the mapping returned by `_allocate` sum to the input amount exactly
(exact decimal arithmetic, before any rounding), whatever the role
partition. -/
theorem allocate_sum_eq_amount (c : Creation) (amount : ℚ)
    (_h : c.contributions ≠ []) :
    mapTotal (allocate c amount []) = amount :=
  allocate_total c amount

theorem allocate_sum_eq_amount_witness :
    creationMix.contributions ≠ []
    ∧ mapTotal (allocate creationMix 77 []) = 77 :=
  ⟨by decide, allocate_sum_eq_amount creationMix 77 (by decide)⟩

/-- C6: for a creation with no contributions, `_allocate` returns
exactly the singleton mapping `{creation.artist: amount}`. -/
theorem allocate_no_contributions_singleton (c : Creation) (amount : ℚ)
    (h : c.contributions = []) :
    allocate c amount [] = [(c.artist, amount)] := by
  simp [allocate, h, mapSet]

theorem allocate_no_contributions_singleton_witness :
    creationUnclaimed.contributions = []
    ∧ allocate creationUnclaimed 10 [] = [(42, 10)] :=
  ⟨by decide, allocate_no_contributions_singleton creationUnclaimed 10 (by decide)⟩

/-- C7: when at least one performer and at least one creator-class
contributor are present, `_allocate` halves the amount: the performer
side receives `amount / 2` in total and the composer/texter side
receives `amount / 2` in total. -/
theorem allocate_performer_creator_halving (c : Creation) (amount : ℚ)
    (hp : roleArtists c ContributionType.performance ≠ [])
    (hc : creatorsOf c ≠ []) :
    ((roleArtists c ContributionType.performance).length : ℚ)
        * performerAmountOf c amount = amount / 2
    ∧ ((roleArtists c ContributionType.composition).length : ℚ)
        * composerAmountOf c amount
      + ((roleArtists c ContributionType.text).length : ℚ)
        * texterAmountOf c amount = amount / 2 := by
  have hbase : baseAmount c amount = amount / 2 := by
    rw [baseAmount, if_pos ⟨hp, hc⟩]
  have hPq : ((roleArtists c ContributionType.performance).length : ℚ) ≠ 0 :=
    Nat.cast_ne_zero.mpr (fun h0 => hp (List.length_eq_zero.mp h0))
  constructor
  · simp only [performerAmountOf, if_pos hp, hbase]
    field_simp
    ring
  · by_cases hC : roleArtists c ContributionType.composition = []
    · have hT : roleArtists c ContributionType.text ≠ [] := by
        rw [creatorsOf, if_pos hC] at hc
        exact hc
      have hTq : ((roleArtists c ContributionType.text).length : ℚ) ≠ 0 :=
        Nat.cast_ne_zero.mpr (fun h0 => hT (List.length_eq_zero.mp h0))
      simp [composerAmountOf, texterAmountOf, hbase, hC, hT]
      field_simp
      ring
    · have hCq : ((roleArtists c ContributionType.composition).length : ℚ) ≠ 0 :=
        Nat.cast_ne_zero.mpr (fun h0 => hC (List.length_eq_zero.mp h0))
      by_cases hT : roleArtists c ContributionType.text = []
      · simp [composerAmountOf, texterAmountOf, hbase, hC, hT]
        field_simp
        ring
      · have hTq : ((roleArtists c ContributionType.text).length : ℚ) ≠ 0 :=
          Nat.cast_ne_zero.mpr (fun h0 => hT (List.length_eq_zero.mp h0))
        simp [composerAmountOf, texterAmountOf, hbase, hC, hT]
        field_simp
        ring

theorem allocate_performer_creator_halving_witness :
    roleArtists creationComposerPerformer ContributionType.performance ≠ []
    ∧ creatorsOf creationComposerPerformer ≠ []
    ∧ (((roleArtists creationComposerPerformer ContributionType.performance).length : ℚ)
          * performerAmountOf creationComposerPerformer 100 = 100 / 2
      ∧ ((roleArtists creationComposerPerformer ContributionType.composition).length : ℚ)
          * composerAmountOf creationComposerPerformer 100
        + ((roleArtists creationComposerPerformer ContributionType.text).length : ℚ)
          * texterAmountOf creationComposerPerformer 100 = 100 / 2)
    ∧ mapGet (allocate creationComposerPerformer 100 []) 1 = 50
    ∧ mapGet (allocate creationComposerPerformer 100 []) 2 = 50 :=
  ⟨by decide, by decide,
   allocate_performer_creator_halving creationComposerPerformer 100
     (by decide) (by decide),
   by
  simp +decide only [allocate, creationComposerPerformer, creationComposerTexter,
    creationDupComposer, roleArtists,
    composerAmountOf, texterAmountOf, performerAmountOf, baseAmount,
    creatorsOf, mapAdd, mapSet, mapGet, List.filter, List.map, List.foldl]
  norm_num, by
  simp +decide only [allocate, creationComposerPerformer, creationComposerTexter,
    creationDupComposer, roleArtists,
    composerAmountOf, texterAmountOf, performerAmountOf, baseAmount,
    creatorsOf, mapAdd, mapSet, mapGet, List.filter, List.map, List.foldl]
  norm_num⟩

/-- C8: when both composers and texters are present, the creator-side
amount is split 65% to composers and 35% to texters, each sub-share
divided evenly among the records of that role. -/
theorem allocate_composer_texter_65_35 (c : Creation) (amount : ℚ)
    (hcomp : roleArtists c ContributionType.composition ≠ [])
    (htex : roleArtists c ContributionType.text ≠ []) :
    composerAmountOf c amount
      = baseAmount c amount * 65 / 100
        / ((roleArtists c ContributionType.composition).length : ℚ)
    ∧ texterAmountOf c amount
      = baseAmount c amount * 35 / 100
        / ((roleArtists c ContributionType.text).length : ℚ)
    ∧ ((roleArtists c ContributionType.composition).length : ℚ)
        * composerAmountOf c amount = baseAmount c amount * 65 / 100
    ∧ ((roleArtists c ContributionType.text).length : ℚ)
        * texterAmountOf c amount = baseAmount c amount * 35 / 100 := by
  have hCq : ((roleArtists c ContributionType.composition).length : ℚ) ≠ 0 :=
    Nat.cast_ne_zero.mpr (fun h0 => hcomp (List.length_eq_zero.mp h0))
  have hTq : ((roleArtists c ContributionType.text).length : ℚ) ≠ 0 :=
    Nat.cast_ne_zero.mpr (fun h0 => htex (List.length_eq_zero.mp h0))
  refine ⟨?_, ?_, ?_, ?_⟩ <;>
    simp [composerAmountOf, texterAmountOf, hcomp, htex] <;>
    field_simp <;> ring

theorem allocate_composer_texter_65_35_witness :
    roleArtists creationComposerTexter ContributionType.composition ≠ []
    ∧ roleArtists creationComposerTexter ContributionType.text ≠ []
    ∧ (composerAmountOf creationComposerTexter 100
        = baseAmount creationComposerTexter 100 * 65 / 100
          / ((roleArtists creationComposerTexter ContributionType.composition).length : ℚ)
      ∧ texterAmountOf creationComposerTexter 100
        = baseAmount creationComposerTexter 100 * 35 / 100
          / ((roleArtists creationComposerTexter ContributionType.text).length : ℚ)
      ∧ ((roleArtists creationComposerTexter ContributionType.composition).length : ℚ)
          * composerAmountOf creationComposerTexter 100
        = baseAmount creationComposerTexter 100 * 65 / 100
      ∧ ((roleArtists creationComposerTexter ContributionType.text).length : ℚ)
          * texterAmountOf creationComposerTexter 100
        = baseAmount creationComposerTexter 100 * 35 / 100)
    ∧ mapGet (allocate creationComposerTexter 100 []) 1 = 65
    ∧ mapGet (allocate creationComposerTexter 100 []) 2 = 35 :=
  ⟨by decide, by decide,
   allocate_composer_texter_65_35 creationComposerTexter 100
     (by decide) (by decide),
   by
  simp +decide only [allocate, creationComposerPerformer, creationComposerTexter,
    creationDupComposer, roleArtists,
    composerAmountOf, texterAmountOf, performerAmountOf, baseAmount,
    creatorsOf, mapAdd, mapSet, mapGet, List.filter, List.map, List.foldl]
  norm_num, by
  simp +decide only [allocate, creationComposerPerformer, creationComposerTexter,
    creationDupComposer, roleArtists,
    composerAmountOf, texterAmountOf, performerAmountOf, baseAmount,
    creatorsOf, mapAdd, mapSet, mapGet, List.filter, List.map, List.foldl]
  norm_num⟩

/-- C10: the even split divides by the number of contribution records
of a role, not by distinct artists: the accumulated result of an
artist is its record count in each role list times the per-record role
amount. -/
theorem allocate_accumulates_per_record (c : Creation) (amount : ℚ)
    (h : c.contributions ≠ []) (a : ArtistId) :
    mapGet (allocate c amount []) a
      = ((roleArtists c ContributionType.composition).count a : ℚ)
          * composerAmountOf c amount
        + ((roleArtists c ContributionType.text).count a : ℚ)
          * texterAmountOf c amount
        + ((roleArtists c ContributionType.performance).count a : ℚ)
          * performerAmountOf c amount := by
  simp only [allocate, if_neg h]
  rw [mapGet_foldl_mapAdd, mapGet_foldl_mapAdd, mapGet_foldl_mapAdd]
  simp only [mapGet]
  ring

theorem allocate_accumulates_per_record_witness :
    creationDupComposer.contributions ≠ []
    ∧ mapGet (allocate creationDupComposer 90 []) 1
        = ((roleArtists creationDupComposer ContributionType.composition).count 1 : ℚ)
            * composerAmountOf creationDupComposer 90
          + ((roleArtists creationDupComposer ContributionType.text).count 1 : ℚ)
            * texterAmountOf creationDupComposer 90
          + ((roleArtists creationDupComposer ContributionType.performance).count 1 : ℚ)
            * performerAmountOf creationDupComposer 90
    ∧ (roleArtists creationDupComposer ContributionType.composition).count 1 = 2
    ∧ composerAmountOf creationDupComposer 90 = 30
    ∧ mapGet (allocate creationDupComposer 90 []) 1 = 60
    ∧ mapGet (allocate creationDupComposer 90 []) 2 = 30 :=
  ⟨by decide,
   allocate_accumulates_per_record creationDupComposer 90 (by decide) 1,
   by decide, by
  simp +decide only [allocate, creationComposerPerformer, creationComposerTexter,
    creationDupComposer, roleArtists,
    composerAmountOf, texterAmountOf, performerAmountOf, baseAmount,
    creatorsOf, mapAdd, mapSet, mapGet, List.filter, List.map, List.foldl]
  norm_num, by
  simp +decide only [allocate, creationComposerPerformer, creationComposerTexter,
    creationDupComposer, roleArtists,
    composerAmountOf, texterAmountOf, performerAmountOf, baseAmount,
    creatorsOf, mapAdd, mapSet, mapGet, List.filter, List.map, List.foldl]
  norm_num, by
  simp +decide only [allocate, creationComposerPerformer, creationComposerTexter,
    creationDupComposer, roleArtists,
    composerAmountOf, texterAmountOf, performerAmountOf, baseAmount,
    creatorsOf, mapAdd, mapSet, mapGet, List.filter, List.map, List.foldl]
  norm_num⟩

/-- C9: with zero eligible utilisations in the window the wizard is a
no-op: no distribution, no allocations, no moves, all rows unchanged. -/
theorem transition_distribute_noop_on_empty_selection (env : Env)
    (start : DistributeStart) (db : DB)
    (h : selectUtilisations start db.utilisations = []) :
    transition_distribute env start db = db := by
  rw [transition_distribute]
  simp [h]

theorem transition_distribute_noop_on_empty_selection_witness :
    selectUtilisations startW dbOutside.utilisations = []
    ∧ transition_distribute envNone startW dbOutside = dbOutside :=
  ⟨by decide,
   transition_distribute_noop_on_empty_selection envNone startW dbOutside
     (by decide)⟩

/-! ## Evaluation lemmas for the rounding service -/

theorem roundHalfEven_intCast (n : ℤ) : roundHalfEven (n : ℚ) = n := by
  simp [roundHalfEven, Int.floor_intCast]

theorem currencyRound_intCast (n : ℤ) : currencyRound (n : ℚ) = n := by
  have h : ((n : ℚ) * 100) = ((n * 100 : ℤ) : ℚ) := by push_cast; ring
  rw [currencyRound, h, roundHalfEven_intCast]
  push_cast
  ring

theorem currencyRound_100 : currencyRound 100 = 100 := by
  rw [show (100 : ℚ) = ((100 : ℤ) : ℚ) by norm_num, currencyRound_intCast]

theorem currencyRound_10 : currencyRound 10 = 10 := by
  rw [show (10 : ℚ) = ((10 : ℤ) : ℚ) by norm_num, currencyRound_intCast]

theorem currencyRound_90 : currencyRound 90 = 90 := by
  rw [show (90 : ℚ) = ((90 : ℤ) : ℚ) by norm_num, currencyRound_intCast]

theorem currencyRound_0 : currencyRound 0 = 0 := by
  rw [show (0 : ℚ) = ((0 : ℤ) : ℚ) by norm_num, currencyRound_intCast]

/-- Rounding `currency.round(90/7)` rounds 12.857142… up to 12.86. -/
theorem currencyRound_90_7 : currencyRound (90 / 7) = 643 / 50 := by
  have hf : ⌊(90 : ℚ) / 7 * 100⌋ = 1285 := by
    rw [Int.floor_eq_iff]
    norm_num
  simp only [currencyRound, roundHalfEven, hf]
  norm_num

theorem sum_map_const_zero {α : Type} (l : List α) :
    (l.map fun _ => (0 : ℚ)).sum = 0 := by
  induction l <;> simp [*]

/-- C3 (amended): the payable amount is the budget when it is below
the balance, else the balance, rounded; but the party is skipped if
and only if its pocket balance is zero — a zero amount resulting from
a zero budget does not skip the party. -/
theorem party_skip_iff_zero_balance (env : Env) (start : DistributeStart)
    (distId allocId : Nat) (p : PartyId) (g : List Utilisation)
    (hg : g ≠ []) :
    (processParty env start distId allocId p g = none
      ↔ (env.parties p).pocket_balance = 0)
    ∧ ∀ r, processParty env start distId allocId p g = some r →
        r.alloc.amount = currencyRound
          (if (env.parties p).pocket_budget < (env.parties p).pocket_balance
           then (env.parties p).pocket_budget
           else (env.parties p).pocket_balance) :=
  ⟨processParty_eq_none_iff env start distId allocId p g hg,
   fun r h => processParty_some_amount env start distId allocId p g r h⟩

theorem party_skip_iff_zero_balance_witness :
    ([mkUtil 1 1 creationOneComposer] ≠ ([] : List Utilisation))
    ∧ (processParty envNone startW 0 0 1 [mkUtil 1 1 creationOneComposer] = none
        ↔ (envNone.parties 1).pocket_balance = 0) :=
  ⟨by decide,
   (party_skip_iff_zero_balance envNone startW 0 0 1
     [mkUtil 1 1 creationOneComposer] (by decide)).1⟩

/-- C3 counterexample: a party with balance 5 and budget 0 has a
resulting amount of 0, yet it is not skipped: an allocation row with
amount 0 is created and its utilisation does not stay
`not_distributed`. -/
theorem zero_budget_party_not_skipped :
    (envZeroBudget.parties 1).pocket_balance = 5
    ∧ (envZeroBudget.parties 1).pocket_budget = 0
    ∧ (transition_distribute envZeroBudget startW dbOneSimple).allocations
        = [{ id := 0, party := 1, distribution := 0,
             type := AllocationType.pocket2hats, amount := 0,
             share_amount := 0 }]
    ∧ ((transition_distribute envZeroBudget startW dbOneSimple).utilisations.map
        fun u => (u.id, u.state, u.allocation))
        = [(1, UtilState.distributed, some 0)] := by
  refine ⟨by norm_num [envZeroBudget], by norm_num [envZeroBudget], ?_, ?_⟩ <;> {
    simp +decide only [transition_distribute, selectUtilisations, combineMin,
      combineMax, partyKeys, loopStep, processParty, writeProcessing,
      envZeroBudget, startW, dbOneSimple, mkUtil, creationOneComposer,
      List.filter, List.map, List.foldl]
    try norm_num [currencyRound_0]
  }

/-- C2 (amended): for every journal entry built for a party, the debit
total equals the party's rounded pocket `amount` and the credit total
equals `fee_amount` plus the sum of the individually rounded artist
hat credits; the entry is exactly balanced whenever those roundings
are exact (each pre-rounding artist share is already at currency
precision and `count * share_amount = amount - fee_amount`), but not
in general. -/
theorem move_debit_credit_totals (env : Env) (start : DistributeStart)
    (distId allocId : Nat) (p : PartyId) (g : List Utilisation)
    (r : PartyResult)
    (h : processParty env start distId allocId p g = some r) :
    (r.move.lines.map MoveLine.debit).sum = r.alloc.amount
    ∧ (r.move.lines.map MoveLine.credit).sum
        = currencyRound (r.alloc.amount * 10 / 100)
          + ((hatCredits g r.alloc.share_amount).map
              fun pr => currencyRound pr.2).sum
    ∧ ((∀ pr ∈ hatCredits g r.alloc.share_amount, currencyRound pr.2 = pr.2) →
        (g.length : ℚ) * r.alloc.share_amount
          = r.alloc.amount - currencyRound (r.alloc.amount * 10 / 100) →
        (r.move.lines.map MoveLine.debit).sum
          = (r.move.lines.map MoveLine.credit).sum) := by
  by_cases hg : g = []
  · rw [processParty, if_pos hg] at h
    exact absurd h (by simp)
  by_cases hb : (env.parties p).pocket_balance = 0
  · rw [processParty, if_neg hg, if_pos hb] at h
    exact absurd h (by simp)
  rw [processParty_some_eq env start distId allocId p g hg hb] at h
  simp only [Option.some.injEq] at h
  subst h
  simp only [List.map_append, List.sum_append, List.map_cons, List.map_nil,
    List.sum_cons, List.sum_nil, List.map_map]
  have hdeb : ((hatCredits g (shareOf env p g.length)).map
      (MoveLine.debit ∘ fun pr =>
        ({ party := none, artist := some pr.1, account := Account.hat pr.1,
           debit := 0, credit := currencyRound pr.2 } : MoveLine))).sum = 0 := by
    rw [show (MoveLine.debit ∘ fun pr : ArtistId × ℚ =>
      ({ party := none, artist := some pr.1, account := Account.hat pr.1,
         debit := 0, credit := currencyRound pr.2 } : MoveLine))
      = fun _ => (0 : ℚ) from rfl]
    exact sum_map_const_zero _
  refine ⟨?_, ?_, ?_⟩
  · simp [hdeb]
  · simp
    rfl
  · intro H1 H2
    have hmapeq : (hatCredits g (shareOf env p g.length)).map
        (MoveLine.credit ∘ fun pr =>
          ({ party := none, artist := some pr.1, account := Account.hat pr.1,
             debit := 0, credit := currencyRound pr.2 } : MoveLine))
        = (hatCredits g (shareOf env p g.length)).map Prod.snd := by
      apply List.map_congr_left
      intro a ha
      simpa using H1 a ha
    rw [hmapeq, hatCredits_total, H2]
    simp only [hdeb, feeOf]
    ring

/-- The result of `processParty` for one party with balance 100,
budget 1000, one utilisation with a single composer: all roundings
are exact and the entry balances. -/
theorem processParty_exact :
    processParty envRich startW 0 0 1 [mkUtil 1 1 creationOneComposer]
      = some resultExact := by
  rw [processParty_some_eq _ _ _ _ _ _ (by decide) (by norm_num [envRich])]
  simp +decide only [cappedAmount, feeOf, shareOf, envRich, resultExact,
    hatCredits, allocate, mkUtil, creationOneComposer, roleArtists,
    composerAmountOf, texterAmountOf, performerAmountOf, baseAmount, creatorsOf,
    mapAdd, mapSet, mapGet, List.filter, List.map, List.foldl, List.flatten,
    startW]
  norm_num [currencyRound_100, currencyRound_10, currencyRound_90]

theorem move_debit_credit_totals_witness :
    processParty envRich startW 0 0 1 [mkUtil 1 1 creationOneComposer]
      = some resultExact
    ∧ (resultExact.move.lines.map MoveLine.debit).sum = resultExact.alloc.amount
    ∧ (resultExact.move.lines.map MoveLine.debit).sum
        = (resultExact.move.lines.map MoveLine.credit).sum := by
  refine ⟨processParty_exact,
    (move_debit_credit_totals envRich startW 0 0 1
      [mkUtil 1 1 creationOneComposer] resultExact processParty_exact).1,
    (move_debit_credit_totals envRich startW 0 0 1
      [mkUtil 1 1 creationOneComposer] resultExact processParty_exact).2.2
      ?_ ?_⟩
  · intro pr hpr
    have hl : hatCredits [mkUtil 1 1 creationOneComposer]
        resultExact.alloc.share_amount = [(1, 90)] := by
      simp +decide only [hatCredits, allocate, mkUtil, creationOneComposer,
        resultExact, roleArtists, composerAmountOf, texterAmountOf,
        performerAmountOf, baseAmount, creatorsOf, mapAdd, mapSet, mapGet,
        List.filter, List.map, List.foldl, List.flatten]
      norm_num
    rw [hl] at hpr
    simp only [List.mem_singleton] at hpr
    subst hpr
    exact currencyRound_90
  · norm_num [resultExact, currencyRound_10]

/-- C2 counterexample: with balance 100 and one utilisation of a
seven-composer creation, the posted journal entry has debit total 100
but credit total 100.02 — the rounded hat credits overshoot. -/
theorem move_unbalanced_counterexample :
    ((transition_distribute envRich startW dbSeven).moves.map
        fun m => ((m.lines.map MoveLine.debit).sum,
                  (m.lines.map MoveLine.credit).sum))
      = [(100, 5001 / 50)]
    ∧ ((100 : ℚ) ≠ 5001 / 50) := by
  constructor
  · simp +decide only [transition_distribute, selectUtilisations, combineMin,
      combineMax, partyKeys, loopStep, processParty, writeProcessing,
      envRich, startW, dbSeven, mkUtil, creationSeven, hatCredits, allocate,
      roleArtists, composerAmountOf, texterAmountOf, performerAmountOf,
      baseAmount, creatorsOf, mapAdd, mapSet, mapGet,
      List.filter, List.map, List.foldl, List.flatten]
    norm_num [currencyRound_100, currencyRound_10, currencyRound_90,
      currencyRound_90_7]
  · norm_num

/-- C1: in a run over two parties, both with money in their pockets,
both utilisations are selected, yet the final bulk write reaches only
the loop variable's last group: the first party's utilisation is left
in `processing` and never becomes `distributed`. -/
theorem transition_distribute_leaves_processing_utilisation :
    (selectUtilisations startW dbTwo.utilisations).length = 2
    ∧ ((transition_distribute envRich startW dbTwo).utilisations.map
        fun u => (u.id, u.state, u.allocation))
      = [(1, UtilState.processing, some 0),
         (2, UtilState.distributed, some 1)] := by
  constructor
  · decide
  · simp +decide only [transition_distribute, selectUtilisations, combineMin,
      combineMax, partyKeys, loopStep, processParty, writeProcessing,
      envRich, startW, dbTwo, mkUtil, creationOneComposer,
      List.filter, List.map, List.foldl]
    try norm_num

/-- C5: the wizard stores `self.start.thru_date` — not the requested
`from_date` — into the new distribution's `from_date`. -/
theorem distribution_from_date_stores_thru_date :
    startW.from_date = 0 ∧ startW.thru_date = 30
    ∧ (transition_distribute envRich startW dbOneSimple).distributions
      = [{ id := 0, date := 40, from_date := 30, thru_date := 30 }] := by
  refine ⟨rfl, rfl, ?_⟩
  simp +decide only [transition_distribute, selectUtilisations, combineMin,
    combineMax, partyKeys, loopStep, processParty, writeProcessing,
    envRich, startW, dbOneSimple, mkUtil, creationOneComposer,
    List.filter, List.map, List.foldl]
  try norm_num
